import Mathlib

/-
Verification of the message-intelligence utilities
(`src/api/utils/message-intel.util.ts`): a payload flattener, a two-phase
message-type detector, and a media-metadata inferencer.

The TypeScript source is shallowly embedded below.  JavaScript strings are
modelled as Lean `String`; the JavaScript string operations used by the
source (`toLowerCase`, `includes`, `startsWith`, `split`) are embedded as
structurally recursive functions over the character list so that every
definition evaluates inside the kernel.  The external collaborators
(`isURL`, `isBase64`, the MIME registry's `lookup`/`extension`) are opaque
stateless functions per the design, so they are passed in as a record of
function parameters.  JavaScript truthiness of optionally-present string
fields (`undefined`/`''` are falsy) is captured by `truthyOpt` and the
`jsOr*` combinators, which model the `a || b` idiom of the source.
-/

namespace MessageIntel

/-- JSON-like payload values: the possible shapes of the untyped (`unknown`)
payloads the source walks with `Object.entries` / `Array.isArray`. -/
inductive Jsonv where
  | null
  | bool (b : Bool)
  | num (n : Int)
  | str (s : String)
  | arr (items : List Jsonv)
  | obj (fields : List (String × Jsonv))

/-- Embedding of JavaScript `String.prototype.toLowerCase` (ASCII range, as
`Char.toLower` provides), written over the character list so it reduces. -/
def toLowerStr (s : String) : String :=
  String.mk (s.data.map Char.toLower)

/-- Embedding of JavaScript `s.includes(t)`: substring containment. -/
def strIncludes (s t : String) : Bool :=
  decide (t.data <:+: s.data)

/-- Embedding of JavaScript `s.startsWith(t)`. -/
def startsWithStr (s t : String) : Bool :=
  t.data.isPrefixOf s.data

/-- Character-level splitter backing the embedding of JavaScript
`String.prototype.split` with a one-character separator. -/
def splitChar (sep : Char) : List Char → List (List Char)
  | [] => [[]]
  | c :: rest =>
    match splitChar sep rest with
    | [] => if c == sep then [[], []] else [[c]]
    | x :: xs => if c == sep then [] :: x :: xs else (c :: x) :: xs

/-- Embedding of JavaScript `s.split(sep)` for a one-character separator. -/
def jsSplit (sep : Char) (s : String) : List String :=
  (splitChar sep s.data).map String.mk

/-- The closed `MessageKind` union of the source. -/
inductive MessageKind where
  | sticker
  | reaction
  | template
  | buttons
  | list
  | location
  | contact
  | poll
  | status
  | ptv
  | audio
  | media
  | text
  | unknown
deriving DecidableEq

/-- Result type of `analyzeMessagePayload` (`MessageAnalysis` in the source). -/
structure MessageAnalysis where
  fieldNames : List String
  values : List Jsonv
  type : MessageKind

/-- Constant `LONG_STRING_THRESHOLD` of the source. -/
def LONG_STRING_THRESHOLD : Nat := 200

/-- Constant `VIDEO_SIZE_THRESHOLD` of the source. -/
def VIDEO_SIZE_THRESHOLD : Nat := 4000000

/-- Constant `AUDIO_SIZE_THRESHOLD` of the source. -/
def AUDIO_SIZE_THRESHOLD : Nat := 1000000

/-- The source's `normaliseField = (field) => field.toLowerCase()`. -/
def normaliseField (field : String) : String :=
  toLowerStr field

/-- One entry of the `messageTypeDetectors` table: a kind together with its
field/value predicate (the source's `match` member, which Lean cannot use as
a field name). -/
structure Detector where
  type : MessageKind
  matchFn : List String → List Jsonv → Bool

/-- The `messageTypeDetectors` rule table of the source, in order. -/
def messageTypeDetectors : List Detector :=
  [⟨.sticker, fun fields _ => fields.any fun f => strIncludes (normaliseField f) "sticker"⟩,
   ⟨.reaction, fun fields _ => fields.any fun f => strIncludes (normaliseField f) "reaction"⟩,
   ⟨.template, fun fields _ =>
      fields.any fun f => ["template", "components", "language"].contains (normaliseField f)⟩,
   ⟨.buttons, fun fields _ => fields.any fun f => strIncludes (normaliseField f) "buttons"⟩,
   ⟨.list, fun fields _ =>
      fields.any fun f =>
        strIncludes (normaliseField f) "sections" || strIncludes (normaliseField f) "buttontext"⟩,
   ⟨.location, fun fields _ =>
      (fields.any fun f => strIncludes (normaliseField f) "latitude") &&
      (fields.any fun f => strIncludes (normaliseField f) "longitude")⟩,
   ⟨.contact, fun fields _ =>
      (fields.any fun f => strIncludes (normaliseField f) "contact") ||
      (fields.any fun f => strIncludes (normaliseField f) "wuid")⟩,
   ⟨.poll, fun fields _ => fields.any fun f => strIncludes (normaliseField f) "selectablecount"⟩,
   ⟨.status, fun fields _ =>
      (fields.any fun f => normaliseField f == "statusjidlist") ||
      (fields.any fun f => normaliseField f == "allcontacts")⟩,
   ⟨.ptv, fun fields _ => fields.any fun f => strIncludes (normaliseField f) "video"⟩,
   ⟨.audio, fun fields _ => fields.any fun f => strIncludes (normaliseField f) "audio"⟩,
   ⟨.media, fun fields _ =>
      fields.any fun f => ["media", "mediatype", "mimetype"].contains (normaliseField f)⟩,
   ⟨.text, fun fields _ => fields.any fun f => normaliseField f == "text"⟩]

/-- The string-typed values of a flattened payload: the source's
`values.filter((value): value is string => typeof value === 'string')`. -/
def stringValues (values : List Jsonv) : List String :=
  values.filterMap fun v =>
    match v with
    | .str s => some s
    | _ => none

/-- The source's `detectByValues`: content-phase detection over the
string-typed values, first substring match in the fixed order wins. -/
def detectByValues (values : List Jsonv) : Option MessageKind :=
  let svs := stringValues values
  if svs.any fun v => strIncludes (toLowerStr v) "sticker" then some .sticker
  else if svs.any fun v => strIncludes (toLowerStr v) "reaction" then some .reaction
  else if svs.any fun v => strIncludes (toLowerStr v) "template" then some .template
  else if svs.any fun v => strIncludes (toLowerStr v) "button" then some .buttons
  else if svs.any fun v => strIncludes (toLowerStr v) "section" then some .list
  else if svs.any fun v => strIncludes (toLowerStr v) "latitude" then some .location
  else if svs.any fun v => strIncludes (toLowerStr v) "contact" then some .contact
  else if svs.any fun v => strIncludes (toLowerStr v) "selectablecount" then some .poll
  else if svs.any fun v => strIncludes (toLowerStr v) "status" then some .status
  else if svs.any fun v => strIncludes (toLowerStr v) "video" then some .ptv
  else if svs.any fun v => strIncludes (toLowerStr v) "audio" then some .audio
  else if svs.any fun v => strIncludes (toLowerStr v) "media" then some .media
  else if svs.any fun v => strIncludes (toLowerStr v) "text" then some .text
  else none

/-- Accumulator of `collectFieldArrays`: the two parallel arrays the source
pushes into. -/
structure FieldArrays where
  fieldNames : List String
  values : List Jsonv

/-- One paired push onto the accumulator, mirroring the source's adjacent
`accumulator.fieldNames.push(path); accumulator.values.push(value)`. -/
def FieldArrays.push (acc : FieldArrays) (path : String) (v : Jsonv) : FieldArrays :=
  ⟨acc.fieldNames ++ [path], acc.values ++ [v]⟩

/-- JavaScript test `value && typeof value === 'object'`: arrays and
(non-null) objects qualify. -/
def isObjLike : Jsonv → Bool
  | .arr _ => true
  | .obj _ => true
  | _ => false

mutual

/-- The source's `collectFieldArrays`.  A non-object, non-array payload
returns the accumulator unchanged (`!payload || typeof payload !== 'object'`);
otherwise the `Object.entries` of the payload are walked in order (an array's
entries enumerate its indices as string keys). -/
def collectFieldArrays (payload : Jsonv) (pre : String) (acc : FieldArrays) : FieldArrays :=
  match payload with
  | .obj fs => collectEntriesObj fs pre acc
  | .arr xs => collectEntriesArr 0 xs pre acc
  | .null => acc
  | .bool _ => acc
  | .num _ => acc
  | .str _ => acc
termination_by sizeOf payload

/-- The `Object.entries(payload).forEach` loop of `collectFieldArrays`, for
an object payload. -/
def collectEntriesObj (fs : List (String × Jsonv)) (pre : String) (acc : FieldArrays) : FieldArrays :=
  match fs with
  | [] => acc
  | (k, v) :: rest =>
    let path := if pre = "" then k else pre ++ "." ++ k
    collectEntriesObj rest pre (stepValue path v (acc.push path v))
termination_by sizeOf fs

/-- The `Object.entries(payload).forEach` loop of `collectFieldArrays`, for
an array payload, whose entry keys are the decimal indices. -/
def collectEntriesArr (i : Nat) (xs : List Jsonv) (pre : String) (acc : FieldArrays) : FieldArrays :=
  match xs with
  | [] => acc
  | v :: rest =>
    let path := if pre = "" then toString i else pre ++ "." ++ toString i
    collectEntriesArr (i + 1) rest pre (stepValue path v (acc.push path v))
termination_by sizeOf xs

/-- The per-entry body after the paired push: an array value gets the inline
indexed-item loop, an object value recurses with the extended path, and any
other value contributes nothing further. -/
def stepValue (path : String) (v : Jsonv) (acc : FieldArrays) : FieldArrays :=
  match v with
  | .arr items => stepArrayItems path 0 items acc
  | .obj fs => collectEntriesObj fs path acc
  | .null => acc
  | .bool _ => acc
  | .num _ => acc
  | .str _ => acc
termination_by sizeOf v

/-- The source's `value.forEach((item, index) => ...)` loop over an array
value: each item is pushed under `path[index]`, and object-like items are
recursed into via `collectFieldArrays`. -/
def stepArrayItems (path : String) (i : Nat) (items : List Jsonv) (acc : FieldArrays) : FieldArrays :=
  match items with
  | [] => acc
  | item :: rest =>
    let ipath := path ++ "[" ++ toString i ++ "]"
    let acc1 := acc.push ipath item
    stepArrayItems path (i + 1) rest (if isObjLike item then collectFieldArrays item ipath acc1 else acc1)
termination_by sizeOf items

end

/-- The source's field-name phase: the first entry of `messageTypeDetectors`
whose predicate holds, if any (`messageTypeDetectors.find(...)?.type`). -/
def detectByFields (fields : List String) (values : List Jsonv) : Option MessageKind :=
  (messageTypeDetectors.find? fun d => d.matchFn fields values).map Detector.type

/-- The source's `analyzeMessagePayload`: flatten, compute `matchedByField`,
compute `matchedByValue` (which falls back to the content phase only when the
field phase found nothing), and resolve `matchedByValue || matchedByField ||
'unknown'`. -/
def analyzeMessagePayload (payload : Jsonv) : MessageAnalysis :=
  let acc := collectFieldArrays payload "" ⟨[], []⟩
  let matchedByField := detectByFields acc.fieldNames acc.values
  let matchedByValue :=
    match matchedByField with
    | some k => some k
    | none => detectByValues acc.values
  ⟨acc.fieldNames, acc.values,
    match matchedByValue with
    | some k => k
    | none =>
      match matchedByField with
      | some k => k
      | none => .unknown⟩

/-- JavaScript truthiness of an optionally-present string field: `undefined`
and the empty string are falsy. -/
def truthyOpt : Option String → Bool
  | some s => !s.isEmpty
  | none => false

/-- The `a || b` idiom with a string fallback: the left value when truthy,
the fallback otherwise. -/
def jsOrStr (a : Option String) (b : String) : String :=
  match a with
  | some s => if s.isEmpty then b else s
  | none => b

/-- The `a || b` idiom when both sides are optionally present. -/
def jsOrOpt (a b : Option String) : Option String :=
  match a with
  | some s => if s.isEmpty then b else some s
  | none => b

/-- The `x || undefined` idiom: collapses a falsy value to `undefined`. -/
def jsOrNone (a : Option String) : Option String :=
  match a with
  | some s => if s.isEmpty then none else some s
  | none => none

/-- The opaque stateless collaborators of the inferencer: the relaxed URL
test, the base64 test, and the MIME registry's lookup and extension mapping
(`false` results modelled as `none`). -/
structure Collaborators where
  isURL : String → Bool
  isBase64 : String → Bool
  mimeLookup : String → Option String
  mimeExtension : String → Option String

/-- The caller-supplied `body` as the inferencer reads it: the four
optionally-present fields it consults. -/
structure MediaBody where
  media : Option String
  mimetype : Option String
  mediatype : Option String
  fileName : Option String

/-- The partial metadata record returned by `inferMediaMetadata`; `none`
means the field is absent from the record. -/
structure MediaMetadata where
  mediatype : Option String
  mimetype : Option String
  fileName : Option String
  media : Option String
deriving DecidableEq

/-- The all-absent metadata record (the `metadata` object as initialised). -/
def emptyMetadata : MediaMetadata :=
  ⟨none, none, none, none⟩

/-- The source's `inferMediaTypeFromMime`: primary MIME category to
attachment kind, with `document` as the residual class. -/
def inferMediaTypeFromMime (mimetype : Option String) : Option String :=
  match mimetype with
  | none => none
  | some m =>
    if m.isEmpty then none
    else if startsWithStr m "image/" then some "image"
    else if startsWithStr m "audio/" then some "audio"
    else if startsWithStr m "video/" then some "video"
    else some "document"

/-- The source's `inferMediaMetadata`.  The URL branch fires on the first
string value accepted by the URL test; otherwise the base64 branch fires on
the first string value that is longer than `LONG_STRING_THRESHOLD` and
accepted by the base64 test; otherwise the empty record is returned. -/
def inferMediaMetadata (c : Collaborators) (body : MediaBody) (analysis : MessageAnalysis) :
    MediaMetadata :=
  let svs := stringValues analysis.values
  match svs.find? c.isURL with
  | some urlCandidate =>
    let mimetype := jsOrNone (c.mimeLookup urlCandidate)
    let extension := jsOrStr (c.mimeExtension (jsOrStr mimetype "")) ((jsSplit '.' urlCandidate).getLastD "")
    ⟨some (jsOrStr body.mediatype (jsOrStr (inferMediaTypeFromMime (jsOrNone mimetype)) "document")),
     jsOrOpt body.mimetype mimetype,
     if !truthyOpt body.fileName && !extension.isEmpty then some ("media." ++ extension) else none,
     some (jsOrStr body.media urlCandidate)⟩
  | none =>
    match svs.find? fun v => decide (v.length > LONG_STRING_THRESHOLD) && c.isBase64 v with
    | some base64Candidate =>
      let lowered := toLowerStr base64Candidate
      let media := some (jsOrStr body.media base64Candidate)
      if strIncludes lowered "audio/ogg" || strIncludes lowered ".ogg" then
        ⟨some (jsOrStr body.mediatype "audio"), some (jsOrStr body.mimetype "audio/ogg"),
         some (jsOrStr body.fileName "audio.ogg"), media⟩
      else if strIncludes lowered "image/jpeg" || strIncludes lowered ".jpg" || strIncludes lowered "jpeg" then
        ⟨some (jsOrStr body.mediatype "image"), some (jsOrStr body.mimetype "image/jpeg"),
         some (jsOrStr body.fileName "image.jpg"), media⟩
      else if base64Candidate.length > VIDEO_SIZE_THRESHOLD then
        ⟨some (jsOrStr body.mediatype "video"), some (jsOrStr body.mimetype "video/mp4"),
         some (jsOrStr body.fileName "video.mp4"), media⟩
      else if base64Candidate.length > AUDIO_SIZE_THRESHOLD then
        ⟨some (jsOrStr body.mediatype "audio"), some (jsOrStr body.mimetype "audio/mpeg"),
         some (jsOrStr body.fileName "audio.mp3"), media⟩
      else
        ⟨some (jsOrStr body.mediatype "image"), some (jsOrStr body.mimetype "image/png"),
         some (jsOrStr body.fileName "image.png"), media⟩
    | none => emptyMetadata

/-- The `(mediatype, mimetype, fileName)` defaults chosen by the base64
classification chain for a given candidate, read off the same condition
chain as the source's branch bodies. -/
def classifyBase64Defaults (v : String) : String × String × String :=
  let lowered := toLowerStr v
  if strIncludes lowered "audio/ogg" || strIncludes lowered ".ogg" then
    ("audio", "audio/ogg", "audio.ogg")
  else if strIncludes lowered "image/jpeg" || strIncludes lowered ".jpg" || strIncludes lowered "jpeg" then
    ("image", "image/jpeg", "image.jpg")
  else if v.length > VIDEO_SIZE_THRESHOLD then
    ("video", "video/mp4", "video.mp4")
  else if v.length > AUDIO_SIZE_THRESHOLD then
    ("audio", "audio/mpeg", "audio.mp3")
  else
    ("image", "image/png", "image.png")

/-- Modelled from the spec: the fileName synthesis of the specification's
URL branch says the fallback extension is "the URL's trailing path segment",
which is the last `/`-separated component of the URL.  The code itself is
present in `src/`; this definition only renders the spec's wording so the
two can be compared. -/
def spec_trailingPathSegment (url : String) : String :=
  (jsSplit '/' url).getLastD ""

/-- Pushing one path/value pair preserves the parallel-length invariant of
the accumulator. -/
theorem push_balanced (acc : FieldArrays) (p : String) (v : Jsonv)
    (h : acc.fieldNames.length = acc.values.length) :
    (acc.push p v).fieldNames.length = (acc.push p v).values.length := by
  simp [FieldArrays.push, h]

mutual

/-- The flattener preserves the parallel-length invariant of the
accumulator. -/
theorem collectFieldArrays_balanced (payload : Jsonv) (pre : String) (acc : FieldArrays)
    (h : acc.fieldNames.length = acc.values.length) :
    (collectFieldArrays payload pre acc).fieldNames.length =
      (collectFieldArrays payload pre acc).values.length := by
  cases payload with
  | obj fs => simp only [collectFieldArrays]; exact collectEntriesObj_balanced fs pre acc h
  | arr xs => simp only [collectFieldArrays]; exact collectEntriesArr_balanced 0 xs pre acc h
  | null => simpa only [collectFieldArrays] using h
  | bool b => simpa only [collectFieldArrays] using h
  | num n => simpa only [collectFieldArrays] using h
  | str s => simpa only [collectFieldArrays] using h
termination_by sizeOf payload

/-- The object-entry loop preserves the parallel-length invariant. -/
theorem collectEntriesObj_balanced (fs : List (String × Jsonv)) (pre : String) (acc : FieldArrays)
    (h : acc.fieldNames.length = acc.values.length) :
    (collectEntriesObj fs pre acc).fieldNames.length =
      (collectEntriesObj fs pre acc).values.length := by
  cases fs with
  | nil => simpa only [collectEntriesObj] using h
  | cons kv rest =>
    cases kv with
    | mk k v =>
      simp only [collectEntriesObj]
      exact collectEntriesObj_balanced rest pre _
        (stepValue_balanced _ v _ (push_balanced acc _ v h))
termination_by sizeOf fs

/-- The array-entry loop preserves the parallel-length invariant. -/
theorem collectEntriesArr_balanced (i : Nat) (xs : List Jsonv) (pre : String) (acc : FieldArrays)
    (h : acc.fieldNames.length = acc.values.length) :
    (collectEntriesArr i xs pre acc).fieldNames.length =
      (collectEntriesArr i xs pre acc).values.length := by
  cases xs with
  | nil => simpa only [collectEntriesArr] using h
  | cons v rest =>
    simp only [collectEntriesArr]
    exact collectEntriesArr_balanced (i + 1) rest pre _
      (stepValue_balanced _ v _ (push_balanced acc _ v h))
termination_by sizeOf xs

/-- The per-entry body preserves the parallel-length invariant. -/
theorem stepValue_balanced (path : String) (v : Jsonv) (acc : FieldArrays)
    (h : acc.fieldNames.length = acc.values.length) :
    (stepValue path v acc).fieldNames.length = (stepValue path v acc).values.length := by
  cases v with
  | arr items => simp only [stepValue]; exact stepArrayItems_balanced path 0 items acc h
  | obj fs => simp only [stepValue]; exact collectEntriesObj_balanced fs path acc h
  | null => simpa only [stepValue] using h
  | bool b => simpa only [stepValue] using h
  | num n => simpa only [stepValue] using h
  | str s => simpa only [stepValue] using h
termination_by sizeOf v

/-- The array-item loop preserves the parallel-length invariant. -/
theorem stepArrayItems_balanced (path : String) (i : Nat) (items : List Jsonv) (acc : FieldArrays)
    (h : acc.fieldNames.length = acc.values.length) :
    (stepArrayItems path i items acc).fieldNames.length =
      (stepArrayItems path i items acc).values.length := by
  cases items with
  | nil => simpa only [stepArrayItems] using h
  | cons item rest =>
    simp only [stepArrayItems]
    refine stepArrayItems_balanced path (i + 1) rest _ ?_
    by_cases hobj : isObjLike item = true
    · simpa [hobj] using
        collectFieldArrays_balanced item _ _ (push_balanced acc _ item h)
    · simpa [hobj] using push_balanced acc _ item h
termination_by sizeOf items

end

/-- C5: for every payload, the `MessageAnalysis` returned by
`analyzeMessagePayload` has exactly as many field names as values; the
flattener pushes onto the two sequences in parallel. -/
theorem analyzeMessagePayload_parallel_lengths (payload : Jsonv) :
    (analyzeMessagePayload payload).fieldNames.length =
      (analyzeMessagePayload payload).values.length := by
  simpa [analyzeMessagePayload] using
    collectFieldArrays_balanced payload "" ⟨[], []⟩ rfl

/-- C1 counterexample: on the payload `{template: 1, note: "tap the button
below"}` the analyzer returns kind `template`, not the `buttons` the claim
requires — the field-name phase's match is taken and the content phase is
never consulted once the field-name phase has matched. -/
theorem analyze_conflict_example :
    (analyzeMessagePayload (.obj [("template", .num 1), ("note", .str "tap the button below")])).type
        = .template ∧
    (analyzeMessagePayload (.obj [("template", .num 1), ("note", .str "tap the button below")])).type
        ≠ .buttons := by
  have hc : collectFieldArrays (.obj [("template", .num 1), ("note", .str "tap the button below")]) "" ⟨[], []⟩ =
      ⟨["template", "note"], [.num 1, .str "tap the button below"]⟩ := by
    simp [collectFieldArrays, collectEntriesObj, stepValue, FieldArrays.push]
  constructor
  · simp only [analyzeMessagePayload, hc]
    decide
  · simp only [analyzeMessagePayload, hc]
    decide

/-- C1 amended: the content phase (Phase B) is evaluated only when the
field-name phase (Phase A) produced no match, and the resulting kind is
Phase A's match when one exists, else Phase B's match, else `unknown`;
in particular `analyze({template: 1, note: "tap the button below"})`
yields kind `template`. -/
theorem analyze_field_phase_precedence :
    (∀ payload : Jsonv,
      (analyzeMessagePayload payload).type =
        match detectByFields (collectFieldArrays payload "" ⟨[], []⟩).fieldNames
            (collectFieldArrays payload "" ⟨[], []⟩).values with
        | some k => k
        | none =>
          match detectByValues (collectFieldArrays payload "" ⟨[], []⟩).values with
          | some k => k
          | none => .unknown) ∧
    (analyzeMessagePayload (.obj [("template", .num 1), ("note", .str "tap the button below")])).type
        = .template := by
  constructor
  · intro payload
    simp only [analyzeMessagePayload]
    cases hA : detectByFields (collectFieldArrays payload "" ⟨[], []⟩).fieldNames
        (collectFieldArrays payload "" ⟨[], []⟩).values with
    | some k => simp [hA]
    | none =>
      cases hB : detectByValues (collectFieldArrays payload "" ⟨[], []⟩).values with
      | some k => simp [hA, hB]
      | none => simp [hA, hB]
  · have hc : collectFieldArrays (.obj [("template", .num 1), ("note", .str "tap the button below")]) "" ⟨[], []⟩ =
        ⟨["template", "note"], [.num 1, .str "tap the button below"]⟩ := by
      simp [collectFieldArrays, collectEntriesObj, stepValue, FieldArrays.push]
    simp only [analyzeMessagePayload, hc]
    decide

/-- C8: in the field-name phase the kind `location` is assigned only when
some path contains the substring "latitude" (case-insensitively) and some
(possibly different) path contains "longitude"; and the payload with exactly
the keys `latitude` and `longitude` is analyzed as `location`. -/
theorem detectByFields_location_requires_both :
    (∀ (fields : List String) (values : List Jsonv),
      detectByFields fields values = some .location →
        (fields.any fun f => strIncludes (normaliseField f) "latitude") = true ∧
        (fields.any fun f => strIncludes (normaliseField f) "longitude") = true) ∧
    (analyzeMessagePayload (.obj [("latitude", .num 1), ("longitude", .num 2)])).type = .location := by
  constructor
  · intro fields values h
    unfold detectByFields at h
    rcases Option.map_eq_some'.mp h with ⟨d, hfind, htype⟩
    have hmem := List.mem_of_find?_eq_some hfind
    have hp := List.find?_some hfind
    simp only [messageTypeDetectors, List.mem_cons, List.not_mem_nil, or_false] at hmem
    rcases hmem with rfl|rfl|rfl|rfl|rfl|rfl|rfl|rfl|rfl|rfl|rfl|rfl|rfl <;>
      first
        | exact Bool.and_eq_true _ _ ▸
            (show ((fields.any fun f => strIncludes (normaliseField f) "latitude") &&
              (fields.any fun f => strIncludes (normaliseField f) "longitude")) = true from hp)
        | simp at htype
  · have hc : collectFieldArrays (.obj [("latitude", .num 1), ("longitude", .num 2)]) "" ⟨[], []⟩ =
        ⟨["latitude", "longitude"], [.num 1, .num 2]⟩ := by
      simp [collectFieldArrays, collectEntriesObj, stepValue, FieldArrays.push]
    simp only [analyzeMessagePayload, hc]
    decide

/-- Witness for C8 at the concrete field list of the spec's example. -/
theorem detectByFields_location_witness :
    detectByFields ["latitude", "longitude"] [] = some .location ∧
    ((["latitude", "longitude"].any fun f => strIncludes (normaliseField f) "latitude") = true ∧
     (["latitude", "longitude"].any fun f => strIncludes (normaliseField f) "longitude") = true) :=
  ⟨by decide, detectByFields_location_requires_both.1 ["latitude", "longitude"] [] (by decide)⟩

/-- C9: when the field-name phase found nothing and no string value contains
any of the five higher-priority content markers, a string value containing
"latitude" (case-insensitively) makes the analyzer return `location`, with
no requirement that any value contain "longitude". -/
theorem analyzeMessagePayload_value_latitude (payload : Jsonv)
    (h0 : detectByFields (collectFieldArrays payload "" ⟨[], []⟩).fieldNames
        (collectFieldArrays payload "" ⟨[], []⟩).values = none)
    (h1 : ((stringValues (collectFieldArrays payload "" ⟨[], []⟩).values).any fun v =>
        strIncludes (toLowerStr v) "sticker") = false)
    (h2 : ((stringValues (collectFieldArrays payload "" ⟨[], []⟩).values).any fun v =>
        strIncludes (toLowerStr v) "reaction") = false)
    (h3 : ((stringValues (collectFieldArrays payload "" ⟨[], []⟩).values).any fun v =>
        strIncludes (toLowerStr v) "template") = false)
    (h4 : ((stringValues (collectFieldArrays payload "" ⟨[], []⟩).values).any fun v =>
        strIncludes (toLowerStr v) "button") = false)
    (h5 : ((stringValues (collectFieldArrays payload "" ⟨[], []⟩).values).any fun v =>
        strIncludes (toLowerStr v) "section") = false)
    (h6 : ((stringValues (collectFieldArrays payload "" ⟨[], []⟩).values).any fun v =>
        strIncludes (toLowerStr v) "latitude") = true) :
    (analyzeMessagePayload payload).type = .location := by
  simp only [analyzeMessagePayload, h0, detectByValues, h1, h2, h3, h4, h5, h6]
  simp

/-- Witness for C9 at the concrete payload `{foo: "near latitude zero"}`. -/
theorem analyzeMessagePayload_value_latitude_witness :
    detectByFields (collectFieldArrays (.obj [("foo", .str "near latitude zero")]) "" ⟨[], []⟩).fieldNames
        (collectFieldArrays (.obj [("foo", .str "near latitude zero")]) "" ⟨[], []⟩).values = none ∧
    (analyzeMessagePayload (.obj [("foo", .str "near latitude zero")])).type = .location := by
  have hc : collectFieldArrays (.obj [("foo", .str "near latitude zero")]) "" ⟨[], []⟩ =
      ⟨["foo"], [.str "near latitude zero"]⟩ := by
    simp [collectFieldArrays, collectEntriesObj, stepValue, FieldArrays.push]
  refine ⟨by rw [hc]; decide, ?_⟩
  exact analyzeMessagePayload_value_latitude _ (by rw [hc]; decide) (by rw [hc]; decide)
    (by rw [hc]; decide) (by rw [hc]; decide) (by rw [hc]; decide) (by rw [hc]; decide)
    (by rw [hc]; decide)

/-- A truthy optional string survives the `a || b` fallback unchanged. -/
theorem jsOrStr_of_truthy (a : Option String) (b : String) (h : truthyOpt a = true) :
    some (jsOrStr a b) = a := by
  cases a with
  | none => simp [truthyOpt] at h
  | some s =>
    simp only [truthyOpt, Bool.not_eq_true'] at h
    simp [jsOrStr, h]

/-- A falsy optional string is replaced by the fallback. -/
theorem jsOrStr_of_not_truthy (a : Option String) (b : String) (h : truthyOpt a = false) :
    jsOrStr a b = b := by
  cases a with
  | none => simp [jsOrStr]
  | some s =>
    simp only [truthyOpt, Bool.not_eq_false'] at h
    simp [jsOrStr, h]

/-- A truthy optional string survives the optional `a || b` fallback. -/
theorem jsOrOpt_of_truthy (a b : Option String) (h : truthyOpt a = true) :
    jsOrOpt a b = a := by
  cases a with
  | none => simp [truthyOpt] at h
  | some s =>
    simp only [truthyOpt, Bool.not_eq_true'] at h
    simp [jsOrOpt, h]

/-- C3: `inferMediaMetadata` is a total function (the embedding returns for
every body and analysis), and when no string value passes the URL test and
none qualifies as a base64 candidate it returns the empty record. -/
theorem inferMediaMetadata_no_candidates (c : Collaborators) (body : MediaBody) (a : MessageAnalysis)
    (h1 : (stringValues a.values).find? c.isURL = none)
    (h2 : ((stringValues a.values).find? fun v =>
        decide (v.length > LONG_STRING_THRESHOLD) && c.isBase64 v) = none) :
    inferMediaMetadata c body a = emptyMetadata := by
  simp only [inferMediaMetadata, h1, h2]

def c3Collab : Collaborators := ⟨fun _ => false, fun _ => false, fun _ => none, fun _ => none⟩

def c3Body : MediaBody := ⟨none, none, none, none⟩

def c3Analysis : MessageAnalysis := ⟨["k"], [.str "hello"], .unknown⟩

/-- Witness for C3 at a concrete signal-free analysis. -/
theorem inferMediaMetadata_no_candidates_witness :
    (stringValues c3Analysis.values).find? c3Collab.isURL = none ∧
    ((stringValues c3Analysis.values).find? fun v =>
        decide (v.length > LONG_STRING_THRESHOLD) && c3Collab.isBase64 v) = none ∧
    inferMediaMetadata c3Collab c3Body c3Analysis = emptyMetadata :=
  ⟨by decide, by decide,
    inferMediaMetadata_no_candidates c3Collab c3Body c3Analysis (by decide) (by decide)⟩

/-- C2 amended: whenever the URL branch or the base64 branch fires, the
truthy body fields `media`, `mimetype` and `mediatype` are copied through
unchanged; `fileName` is copied through in the base64 branch, but in the URL
branch a truthy `body.fileName` causes the returned record to omit
`fileName` entirely (it is still never recomputed or overwritten). -/
theorem inferMediaMetadata_preserves_body (c : Collaborators) (body : MediaBody) (a : MessageAnalysis) :
    ((((stringValues a.values).find? c.isURL).isSome = true ∨
      (((stringValues a.values).find? fun v =>
          decide (v.length > LONG_STRING_THRESHOLD) && c.isBase64 v)).isSome = true) →
      (truthyOpt body.media = true → (inferMediaMetadata c body a).media = body.media) ∧
      (truthyOpt body.mimetype = true → (inferMediaMetadata c body a).mimetype = body.mimetype) ∧
      (truthyOpt body.mediatype = true → (inferMediaMetadata c body a).mediatype = body.mediatype)) ∧
    ((stringValues a.values).find? c.isURL = none →
      (((stringValues a.values).find? fun v =>
          decide (v.length > LONG_STRING_THRESHOLD) && c.isBase64 v)).isSome = true →
      truthyOpt body.fileName = true → (inferMediaMetadata c body a).fileName = body.fileName) ∧
    (((stringValues a.values).find? c.isURL).isSome = true →
      truthyOpt body.fileName = true → (inferMediaMetadata c body a).fileName = none) := by
  refine ⟨?_, ?_, ?_⟩
  · intro hfire
    cases hurl : (stringValues a.values).find? c.isURL with
    | some u =>
      refine ⟨fun hm => ?_, fun hm => ?_, fun hm => ?_⟩
      · simp only [inferMediaMetadata, hurl]
        exact jsOrStr_of_truthy body.media u hm
      · simp only [inferMediaMetadata, hurl]
        exact jsOrOpt_of_truthy body.mimetype _ hm
      · simp only [inferMediaMetadata, hurl]
        exact jsOrStr_of_truthy body.mediatype _ hm
    | none =>
      have hb : (((stringValues a.values).find? fun v =>
          decide (v.length > LONG_STRING_THRESHOLD) && c.isBase64 v)).isSome = true := by
        rcases hfire with h | h
        · rw [hurl] at h; simp at h
        · exact h
      obtain ⟨v, hv⟩ := Option.isSome_iff_exists.mp hb
      refine ⟨fun hm => ?_, fun hm => ?_, fun hm => ?_⟩ <;>
        · simp only [inferMediaMetadata, hurl, hv]
          split_ifs <;>
            first
              | exact jsOrStr_of_truthy body.media v hm
              | exact jsOrStr_of_truthy body.mimetype _ hm
              | exact jsOrStr_of_truthy body.mediatype _ hm
  · intro hurl hb hm
    obtain ⟨v, hv⟩ := Option.isSome_iff_exists.mp hb
    simp only [inferMediaMetadata, hurl, hv]
    split_ifs <;> exact jsOrStr_of_truthy body.fileName _ hm
  · intro hurl hm
    obtain ⟨u, hu⟩ := Option.isSome_iff_exists.mp hurl
    simp only [inferMediaMetadata, hu, hm]
    simp

def c2Collab : Collaborators := ⟨fun _ => true, fun _ => false, fun _ => none, fun _ => none⟩

def c2Body : MediaBody := ⟨none, none, none, some "f.txt"⟩

def c2Analysis : MessageAnalysis := ⟨["m"], [.str "http://host/x"], .unknown⟩

/-- C2 counterexample: in the URL branch a truthy `body.fileName` does not
appear in the returned record at all — the record's `fileName` is absent
(`none`), not the body's value. -/
theorem inferMediaMetadata_fileName_dropped :
    truthyOpt c2Body.fileName = true ∧
    ((stringValues c2Analysis.values).find? c2Collab.isURL).isSome = true ∧
    (inferMediaMetadata c2Collab c2Body c2Analysis).fileName = none ∧
    (inferMediaMetadata c2Collab c2Body c2Analysis).fileName ≠ c2Body.fileName := by
  refine ⟨by decide, by decide, by decide, by decide⟩

def c2wBody : MediaBody := ⟨none, some "x/y", none, none⟩

/-- Witness for C2 at the spec's example: a body carrying mimetype `x/y`
keeps it when a URL candidate fires. -/
theorem inferMediaMetadata_preserves_body_witness :
    ((stringValues c2Analysis.values).find? c2Collab.isURL).isSome = true ∧
    truthyOpt c2wBody.mimetype = true ∧
    (inferMediaMetadata c2Collab c2wBody c2Analysis).mimetype = c2wBody.mimetype :=
  ⟨by decide, by decide,
    ((inferMediaMetadata_preserves_body c2Collab c2wBody c2Analysis).1
      (Or.inl (by decide))).2.1 (by decide)⟩

def c4Collab : Collaborators := ⟨fun _ => true, fun _ => false, fun _ => none, fun _ => none⟩

def c4Body : MediaBody := ⟨none, none, none, none⟩

def c4Analysis : MessageAnalysis := ⟨["m"], [.str "http://ex.com/file"], .unknown⟩

/-- C4 counterexample: with the registry's extension mapping failing on the
URL `http://ex.com/file`, the code synthesizes `media.com/file` (the portion
of the URL after its last dot), not `media.file` as the spec's "trailing
path segment" wording would give. -/
theorem inferMediaMetadata_extension_not_path_segment :
    (inferMediaMetadata c4Collab c4Body c4Analysis).fileName = some "media.com/file" ∧
    "media." ++ spec_trailingPathSegment "http://ex.com/file" = "media.file" ∧
    (inferMediaMetadata c4Collab c4Body c4Analysis).fileName ≠
      some ("media." ++ spec_trailingPathSegment "http://ex.com/file") := by
  refine ⟨by decide, by decide, by decide⟩

/-- C4 amended: in the URL branch, when `body.fileName` is falsy, the
returned `fileName` is `media.<ext>` where `<ext>` is the registry's
extension mapping for the looked-up MIME type or, failing that, the portion
of the URL after its last dot (the whole URL when it has no dot); when that
extension is empty the record omits `fileName`. -/
theorem inferMediaMetadata_fileName_formula (c : Collaborators) (body : MediaBody)
    (a : MessageAnalysis) (url : String)
    (hurl : (stringValues a.values).find? c.isURL = some url)
    (hfn : truthyOpt body.fileName = false) :
    (inferMediaMetadata c body a).fileName =
      (if (jsOrStr (c.mimeExtension (jsOrStr (jsOrNone (c.mimeLookup url)) ""))
            ((jsSplit '.' url).getLastD "")).isEmpty then none
       else some ("media." ++ jsOrStr (c.mimeExtension (jsOrStr (jsOrNone (c.mimeLookup url)) ""))
            ((jsSplit '.' url).getLastD ""))) := by
  simp only [inferMediaMetadata, hurl, hfn]
  cases hext : (jsOrStr (c.mimeExtension (jsOrStr (jsOrNone (c.mimeLookup url)) ""))
      ((jsSplit '.' url).getLastD "")).isEmpty <;>
    simp [hext]

def c4wAnalysis : MessageAnalysis := ⟨["m"], [.str "http://a.b/c.png"], .unknown⟩

/-- Witness for C4 at a URL whose last dot-component is `png`. -/
theorem inferMediaMetadata_fileName_formula_witness :
    (stringValues c4wAnalysis.values).find? c4Collab.isURL = some "http://a.b/c.png" ∧
    truthyOpt c4Body.fileName = false ∧
    (inferMediaMetadata c4Collab c4Body c4wAnalysis).fileName = some "media.png" := by
  refine ⟨by decide, by decide, ?_⟩
  rw [inferMediaMetadata_fileName_formula c4Collab c4Body c4wAnalysis "http://a.b/c.png"
    (by decide) (by decide)]
  decide

/-- C6: once a URL candidate exists the base64 test is never consulted (the
result is unchanged under any replacement of the base64 collaborator), and
the base64 selection only ever returns a string whose length strictly
exceeds 200, so a string of length 150 is never selected. -/
theorem base64_branch_gating (c : Collaborators) (g : String → Bool) (body : MediaBody)
    (a : MessageAnalysis) :
    (((stringValues a.values).find? c.isURL).isSome = true →
      inferMediaMetadata c body a =
        inferMediaMetadata ⟨c.isURL, g, c.mimeLookup, c.mimeExtension⟩ body a) ∧
    (∀ v : String, ((stringValues a.values).find? fun v =>
        decide (v.length > LONG_STRING_THRESHOLD) && c.isBase64 v) = some v →
      200 < v.length) ∧
    (∀ v : String, v.length = 150 →
      ((stringValues a.values).find? fun v =>
        decide (v.length > LONG_STRING_THRESHOLD) && c.isBase64 v) ≠ some v) := by
  have hlen : ∀ v : String, ((stringValues a.values).find? fun v =>
      decide (v.length > LONG_STRING_THRESHOLD) && c.isBase64 v) = some v → 200 < v.length := by
    intro v hv
    have hp := List.find?_some hv
    simp only [Bool.and_eq_true, decide_eq_true_eq] at hp
    exact hp.1
  refine ⟨?_, hlen, ?_⟩
  · intro h
    obtain ⟨u, hu⟩ := Option.isSome_iff_exists.mp h
    simp only [inferMediaMetadata, hu]
  · intro v h150 hv
    have := hlen v hv
    omega

def c6Collab : Collaborators := ⟨fun _ => true, fun _ => true, fun _ => none, fun _ => none⟩

def c6G : String → Bool := fun _ => false

def c6Body : MediaBody := ⟨none, none, none, none⟩

def c6Analysis : MessageAnalysis := ⟨["u"], [.str "http://host/x"], .unknown⟩

def c6V150 : String := String.mk (List.replicate 150 'a')

/-- Witness for C6: a present URL candidate makes the base64 collaborator
irrelevant, and a 150-character string is rejected by the selection. -/
theorem base64_branch_gating_witness :
    ((stringValues c6Analysis.values).find? c6Collab.isURL).isSome = true ∧
    inferMediaMetadata c6Collab c6Body c6Analysis =
      inferMediaMetadata ⟨c6Collab.isURL, c6G, c6Collab.mimeLookup, c6Collab.mimeExtension⟩
        c6Body c6Analysis ∧
    c6V150.length = 150 ∧
    ((stringValues c6Analysis.values).find? fun v =>
        decide (v.length > LONG_STRING_THRESHOLD) && c6Collab.isBase64 v) ≠ some c6V150 := by
  have h150 : c6V150.length = 150 := by simp [c6V150, String.length]
  exact ⟨by decide, (base64_branch_gating c6Collab c6G c6Body c6Analysis).1 (by decide), h150,
    (base64_branch_gating c6Collab c6G c6Body c6Analysis).2.2 c6V150 h150⟩

/-- Length of a string built from an explicit character list. -/
theorem length_mk (l : List Char) : (String.mk l).length = l.length := rfl

/-- A string containing a character other than the repeated one cannot occur
inside a repetition of that character. -/
theorem strIncludes_replicate_eq_false (n : Nat) (c : Char) (t : String)
    (h : ∃ x ∈ t.data, x ≠ c) :
    strIncludes (String.mk (List.replicate n c)) t = false := by
  rcases h with ⟨x, hx, hxc⟩
  simp only [strIncludes, decide_eq_false_iff_not]
  intro hinf
  exact hxc (List.eq_of_mem_replicate (hinf.subset hx))

/-- Lower-casing a repetition of a lowercase letter leaves it unchanged. -/
theorem toLowerStr_replicate_a (n : Nat) :
    toLowerStr (String.mk (List.replicate n 'a')) = String.mk (List.replicate n 'a') := by
  have ha : Char.toLower 'a' = 'a' := by decide
  simp [toLowerStr, List.map_replicate, ha]

/-- C7: a base64 candidate of length 5,000,000 whose lower-cased content has
none of the audio/image markers, with a body carrying none of
mediatype/mimetype/fileName, yields mediatype `video`, mimetype `video/mp4`
and fileName `video.mp4`. -/
theorem base64_branch_video_defaults (c : Collaborators) (body : MediaBody) (a : MessageAnalysis)
    (v : String)
    (hurl : (stringValues a.values).find? c.isURL = none)
    (hb64 : ((stringValues a.values).find? fun v =>
        decide (v.length > LONG_STRING_THRESHOLD) && c.isBase64 v) = some v)
    (hlen : v.length = 5000000)
    (hm1 : strIncludes (toLowerStr v) "audio/ogg" = false)
    (hm2 : strIncludes (toLowerStr v) ".ogg" = false)
    (hm3 : strIncludes (toLowerStr v) "image/jpeg" = false)
    (hm4 : strIncludes (toLowerStr v) ".jpg" = false)
    (hm5 : strIncludes (toLowerStr v) "jpeg" = false)
    (hbody1 : truthyOpt body.mediatype = false)
    (hbody2 : truthyOpt body.mimetype = false)
    (hbody3 : truthyOpt body.fileName = false) :
    (inferMediaMetadata c body a).mediatype = some "video" ∧
    (inferMediaMetadata c body a).mimetype = some "video/mp4" ∧
    (inferMediaMetadata c body a).fileName = some "video.mp4" := by
  simp only [inferMediaMetadata, hurl, hb64, hm1, hm2, hm3, hm4, hm5, hlen]
  simp only [VIDEO_SIZE_THRESHOLD]
  norm_num
  exact ⟨jsOrStr_of_not_truthy body.mediatype _ hbody1,
    jsOrStr_of_not_truthy body.mimetype _ hbody2,
    jsOrStr_of_not_truthy body.fileName _ hbody3⟩

def c7V : String := String.mk (List.replicate 5000000 'a')

def c7Collab : Collaborators := ⟨fun _ => false, fun _ => true, fun _ => none, fun _ => none⟩

def c7Body : MediaBody := ⟨none, none, none, none⟩

def c7Analysis : MessageAnalysis := ⟨["b"], [.str c7V], .unknown⟩

/-- Witness for C7 at a concrete 5,000,000-character marker-free candidate. -/
theorem base64_branch_video_defaults_witness :
    c7V.length = 5000000 ∧
    (inferMediaMetadata c7Collab c7Body c7Analysis).mediatype = some "video" ∧
    (inferMediaMetadata c7Collab c7Body c7Analysis).mimetype = some "video/mp4" ∧
    (inferMediaMetadata c7Collab c7Body c7Analysis).fileName = some "video.mp4" := by
  have hlen : c7V.length = 5000000 := by
    rw [show c7V = String.mk (List.replicate 5000000 'a') from rfl, length_mk,
      List.length_replicate]
  have hlow : toLowerStr c7V = String.mk (List.replicate 5000000 'a') := by
    rw [show c7V = String.mk (List.replicate 5000000 'a') from rfl]
    exact toLowerStr_replicate_a 5000000
  have hurl : (stringValues c7Analysis.values).find? c7Collab.isURL = none := by
    simp [c7Analysis, c7Collab, stringValues, List.find?]
  have hb64 : ((stringValues c7Analysis.values).find? fun v =>
      decide (v.length > LONG_STRING_THRESHOLD) && c7Collab.isBase64 v) = some c7V := by
    have hpred : (decide (c7V.length > LONG_STRING_THRESHOLD) && c7Collab.isBase64 c7V) = true := by
      rw [LONG_STRING_THRESHOLD, hlen]
      decide
    exact List.find?_cons_of_pos _ hpred
  have hm : ∀ t : String, (∃ x ∈ t.data, x ≠ 'a') → strIncludes (toLowerStr c7V) t = false := by
    intro t ht
    rw [hlow]
    exact strIncludes_replicate_eq_false 5000000 'a' t ht
  refine ⟨hlen, ?_⟩
  exact base64_branch_video_defaults c7Collab c7Body c7Analysis c7V hurl hb64 hlen
    (hm _ (by decide)) (hm _ (by decide)) (hm _ (by decide)) (hm _ (by decide)) (hm _ (by decide))
    (by decide) (by decide) (by decide)

/-- C10: whenever the base64 branch selects a candidate, the returned record
carries all four fields, each equal to the body's truthy value when present
and to the matching classification rule's default otherwise. -/
theorem base64_branch_full_record (c : Collaborators) (body : MediaBody) (a : MessageAnalysis)
    (v : String)
    (hurl : (stringValues a.values).find? c.isURL = none)
    (hb64 : ((stringValues a.values).find? fun v =>
        decide (v.length > LONG_STRING_THRESHOLD) && c.isBase64 v) = some v) :
    inferMediaMetadata c body a =
      ⟨some (jsOrStr body.mediatype (classifyBase64Defaults v).1),
       some (jsOrStr body.mimetype (classifyBase64Defaults v).2.1),
       some (jsOrStr body.fileName (classifyBase64Defaults v).2.2),
       some (jsOrStr body.media v)⟩ := by
  simp only [inferMediaMetadata, hurl, hb64, classifyBase64Defaults]
  split_ifs <;> rfl

def c10V : String := String.mk (List.replicate 201 'a')

def c10Collab : Collaborators := ⟨fun _ => false, fun _ => true, fun _ => none, fun _ => none⟩

def c10Body : MediaBody := ⟨some "M", none, some "video", none⟩

def c10Analysis : MessageAnalysis := ⟨["b"], [.str c10V], .unknown⟩

set_option maxRecDepth 10000

/-- Witness for C10 at a concrete 201-character candidate with a body that
supplies `media` and `mediatype` but not `mimetype`/`fileName`. -/
theorem base64_branch_full_record_witness :
    (stringValues c10Analysis.values).find? c10Collab.isURL = none ∧
    ((stringValues c10Analysis.values).find? fun v =>
        decide (v.length > LONG_STRING_THRESHOLD) && c10Collab.isBase64 v) = some c10V ∧
    inferMediaMetadata c10Collab c10Body c10Analysis =
      ⟨some (jsOrStr c10Body.mediatype (classifyBase64Defaults c10V).1),
       some (jsOrStr c10Body.mimetype (classifyBase64Defaults c10V).2.1),
       some (jsOrStr c10Body.fileName (classifyBase64Defaults c10V).2.2),
       some (jsOrStr c10Body.media c10V)⟩ :=
  ⟨by decide, by decide,
    base64_branch_full_record c10Collab c10Body c10Analysis c10V (by decide) (by decide)⟩

end MessageIntel
